import Mathlib

/-!
Verification of the uzi UCI-codec core (src/err.rs, src/gui.rs, src/engcmd.rs)
against its specification.  The Rust data model and functions are shallowly
embedded: structs become structures, enums become inductives, `Option<T>`
becomes `Option`, machine integers that are only formatted become `Nat`/`Int`,
`Result<T, UziErr>` becomes `Except UziErr T`, and `Display::fmt` impls become
pure `String`-valued functions (formatting into a string buffer never fails in
the source, so totality is by construction).
-/

/-- UziErr from src/err.rs: the closed error-kind enum of the library.
The payloads of BadMillis are the field name and the raw value. -/
inductive UziErr where
  | badBool
  | badMillis (field raw : String)
  | badNumber
  | badOpponent
  | badPlayerType
  | badTitle
  | goErr
  | missingCmd
  | missingOnOff
  | nothingSetForGo
  | position
  | setOptErr
  | unknownOpt
  | what
  deriving DecidableEq

/-- Helper for the token stream: splits a list of characters into maximal runs
of non-whitespace characters, accumulating the current (reversed) run in
`cur`.  This models Rust's str::split_whitespace, which yields the
whitespace-free words of the line and never yields an empty word. -/
def splitWhitespaceAux : List Char → List Char → List String
  | [], cur => if cur.isEmpty then [] else [String.mk cur.reverse]
  | c :: cs, cur =>
    if c.isWhitespace then
      if cur.isEmpty then splitWhitespaceAux cs []
      else String.mk cur.reverse :: splitWhitespaceAux cs []
    else splitWhitespaceAux cs (c :: cur)

/-- Model of Rust's str::split_whitespace used by GuiCmd::try_from
(src/gui.rs line 51). -/
def split_whitespace (s : String) : List String :=
  splitWhitespaceAux s.data []

/-- PosOpt from src/gui.rs: the base position is either the start position or
a FEN string. -/
inductive PosOpt where
  | startPos
  | fen (s : String)
  deriving DecidableEq

/-- Pos from src/gui.rs: the UCI "position" command payload, a base position
plus an optional ordered list of move tokens. -/
structure Pos where
  pos : PosOpt
  moves : Option (List String)
  deriving DecidableEq

/-- Go from src/gui.rs: the UCI "go" command payload; twelve
independently-optional fields (eleven search limits plus the infinite flag). -/
structure Go where
  search_moves : Option (List String)
  ponder : Option Bool
  wtime : Option Nat
  btime : Option Nat
  winc : Option Nat
  binc : Option Nat
  moves_to_go : Option Nat
  depth : Option Nat
  nodes : Option Nat
  mate : Option Nat
  move_time : Option Nat
  infinite : Option Unit
  deriving DecidableEq

/-- Go::default / Go::new from src/gui.rs: every field unset. -/
def Go.new : Go :=
  { search_moves := none, ponder := none, wtime := none, btime := none
    winc := none, binc := none, moves_to_go := none, depth := none
    nodes := none, mate := none, move_time := none, infinite := none }

/-- Modelled from the spec: UciOpt (an engine-option assignment) lives in the
absent module src/opt.rs; the core only frames it as an opaque token with its
own parse/format contract (spec section 6), so it is modelled as its text. -/
structure UciOpt where
  text : String
  deriving DecidableEq

/-- GuiCmd from src/gui.rs: one variant per GUI-to-engine command. -/
inductive GuiCmd where
  | uci
  | debug (flag : Bool)
  | isReady
  | setOpt (o : UciOpt)
  | newGame
  | pos (p : Pos)
  | go (g : Go)
  | stop
  | ponderhit
  deriving DecidableEq

/-- Outcome of a call to GuiCmd::try_from.  The source's body is
`todo!()` after the empty-input check; Rust's todo! macro panics, which is
modelled as the distinguished outcome `panicTodo` (distinct from returning
Ok or Err). -/
inductive TryFromOutcome where
  | ok (c : GuiCmd)
  | err (e : UziErr)
  | panicTodo
  deriving DecidableEq

/-- GuiCmd::try_from from src/gui.rs lines 50-56: split the line on
whitespace; if there are no words, return Err(UziErr::MissingCmd); otherwise
the body is todo!(), which panics. -/
def GuiCmd.try_from (cmd : String) : TryFromOutcome :=
  let words := split_whitespace cmd
  if words.isEmpty then .err .missingCmd else .panicTodo

/-- PosBuilder from src/gui.rs: accumulates a base position and moves. -/
structure PosBuilder where
  pos : Option PosOpt
  moves : Option (List String)
  deriving DecidableEq

/-- PosBuilder::new from src/gui.rs: both fields unset. -/
def PosBuilder.new : PosBuilder := { pos := none, moves := none }

/-- PosBuilder::start_pos from src/gui.rs: replace the base position with
StartPos. -/
def PosBuilder.start_pos (b : PosBuilder) : PosBuilder :=
  { b with pos := some .startPos }

/-- PosBuilder::fen from src/gui.rs: replace the base position with the FEN
string. -/
def PosBuilder.fen (b : PosBuilder) (fen : String) : PosBuilder :=
  { b with pos := some (.fen fen) }

/-- PosBuilder::add_move from src/gui.rs: push the move onto the move list,
creating the list if it does not exist yet. -/
def PosBuilder.add_move (b : PosBuilder) (mv : String) : PosBuilder :=
  match b.moves with
  | some moves => { b with moves := some (moves ++ [mv]) }
  | none => { b with moves := some [mv] }

/-- PosBuilder::build from src/gui.rs lines 183-192.  The Rust method takes
&mut self and returns Result<Pos, UziErr>; it is modelled as returning the
result together with the builder's state after the call.  On the error path
the method returns early, leaving the builder untouched; on success it moves
both fields out with Option::take, leaving them None. -/
def PosBuilder.build (b : PosBuilder) : Except UziErr Pos × PosBuilder :=
  match b.pos with
  | none => (.error .position, b)
  | some p => (.ok { pos := p, moves := b.moves }, { pos := none, moves := none })

/-- GoBuilder from src/gui.rs lines 131-141 wraps a Go value.  Only the
struct and GoBuilder::new appear in src. -/
structure GoBuilder where
  go : Go
  deriving DecidableEq

/-- GoBuilder::new from src/gui.rs: wraps Go::new. -/
def GoBuilder.new : GoBuilder := { go := Go.new }

/-- True when every one of the twelve optional fields of a Go is unset,
the state the spec calls "no limiting option and no infinite flag". -/
def Go.allUnset (g : Go) : Bool :=
  g.search_moves.isNone && g.ponder.isNone && g.wtime.isNone && g.btime.isNone
    && g.winc.isNone && g.binc.isNone && g.moves_to_go.isNone && g.depth.isNone
    && g.nodes.isNone && g.mate.isNone && g.move_time.isNone && g.infinite.isNone

/-- Modelled from the spec: GoBuilder::build is absent from src (src/gui.rs
defines only the GoBuilder struct and new).  Spec section 4.2 defines
NothingSetForGo as "a go command with no limiting option and no infinite
flag", section 4.3 makes build() the sole validation point, and section 8
requires a builder holding only infinite to succeed and a second build()
after one successful build to fail (fields consumed, not retained).  So:
build fails with NothingSetForGo exactly when every field including infinite
is unset, and on success moves the Go out, resetting the builder. -/
def GoBuilder.build (b : GoBuilder) : Except UziErr Go × GoBuilder :=
  if b.go.allUnset then (.error .nothingSetForGo, b)
  else (.ok b.go, GoBuilder.new)

/-- Modelled from the spec: Pm (a half-move token) lives in the absent module
src/pm.rs; the core treats it as an opaque text token with its own
parse/format contract (spec section 6), so it is modelled as its rendered
text. -/
abbrev Pm := String

/-- Modelled from the spec: HasOpt (an engine-option declaration) lives in
the absent module src/opt.rs; the core only delegates to its Display contract
(spec section 6), so it is modelled as its rendered text. -/
structure HasOpt where
  text : String
  deriving DecidableEq

/-- Display for HasOpt: delegated, the token renders as its own text. -/
def HasOpt.fmt (h : HasOpt) : String := h.text

/-- ScoreBound from src/engcmd.rs: a lower or an upper score bound. -/
inductive ScoreBound where
  | lower
  | upper
  deriving DecidableEq

/-- ScoreBound::as_str from src/engcmd.rs lines 276-281. -/
def ScoreBound.as_str : ScoreBound → String
  | .lower => "lowerbound"
  | .upper => "upperbound"

/-- Score from src/engcmd.rs: centipawn value (i32), optional mate count
(i16, negative when the engine is getting mated), optional bound. -/
structure Score where
  cp : Int
  mate : Option Int
  bound : Option ScoreBound
  deriving DecidableEq

/-- Display for Score from src/engcmd.rs lines 255-266: write
"score cp {cp}", then " {mate}" when mate is set, then " {bound}" when bound
is set. -/
def Score.fmt (s : Score) : String :=
  let r := "score cp " ++ toString s.cp
  let r := match s.mate with
    | some mate => r ++ " " ++ toString mate
    | none => r
  match s.bound with
  | some bound => r ++ " " ++ bound.as_str
  | none => r

/-- MultiPv from src/engcmd.rs: rank (u64) plus an ordered move sequence. -/
structure MultiPv where
  rank : Nat
  moves : List Pm
  deriving DecidableEq

/-- Display for MultiPv from src/engcmd.rs lines 299-307: write
"multipv {rank}", then " {pm}" for each move in order. -/
def MultiPv.fmt (m : MultiPv) : String :=
  m.moves.foldl (fun acc pm => acc ++ " " ++ pm) ("multipv " ++ toString m.rank)

/-- Refutation from src/engcmd.rs: one refuted move plus the line of moves
that refute it. -/
structure Refutation where
  refuted_move : Pm
  moves : List Pm
  deriving DecidableEq

/-- Display for Refutation from src/engcmd.rs lines 230-238: write
"refutation {refuted_move}", then " {pm}" for each move in order. -/
def Refutation.fmt (r : Refutation) : String :=
  r.moves.foldl (fun acc pm => acc ++ " " ++ pm) ("refutation " ++ r.refuted_move)

/-- CurrLine from src/engcmd.rs: optional cpu number (u16) plus an ordered
move sequence. -/
structure CurrLine where
  cpu_id : Option Nat
  line : List Pm
  deriving DecidableEq

/-- Display for CurrLine from src/engcmd.rs lines 206-217: write "currline",
then " {cpu_id}" when set, then " {pm}" for each move in order. -/
def CurrLine.fmt (c : CurrLine) : String :=
  let r := "currline"
  let r := match c.cpu_id with
    | some cpu_id => r ++ " " ++ toString cpu_id
    | none => r
  c.line.foldl (fun acc pm => acc ++ " " ++ pm) r

/-- Info from src/engcmd.rs lines 75-134: the aggregate of
independently-optional fields of the "info" command, in declaration order.
The source's `time` field is a std Duration of which only as_millis() is ever
read (Display renders the whole-millisecond count), so it is modelled by that
millisecond count. -/
structure Info where
  depth : Option Nat
  sel_depth : Option Nat
  node : Option Nat
  time : Option Nat
  pv : Option (List Pm)
  multi_pv : Option MultiPv
  score : Option Score
  curr_move : Option Pm
  hash_full : Option Nat
  nodes_per_sec : Option Nat
  tb_hits : Option Nat
  sb_hits : Option Nat
  cpu_load : Option Nat
  string : Option String
  refutation : Option Refutation
  curr_line : Option CurrLine
  deriving DecidableEq

/-- Append an optional fragment to the string built so far: the shape of each
`if let Some(x) = field { write!(formatter, ...)? }` block in the Display
impls, which appends its text to the formatter's buffer exactly when the
field is present. -/
def emitFrag (r : String) (o : Option String) : String :=
  match o with
  | some s => r ++ s
  | none => r

/-- The sixteen optional fragments of an Info line, one per field, in the
declaration order of the struct (which is also the order the Display impl
tests the fields in, src/engcmd.rs lines 136-192).  Each entry is `some`
exactly when the field is `Some`, and holds the text the corresponding
write! appends, including its leading space. -/
def Info.fragments (i : Info) : List (Option String) :=
  [ i.depth.map (fun depth => " depth " ++ toString depth),
    i.sel_depth.map (fun sel_depth => " seldepth " ++ toString sel_depth),
    i.node.map (fun node => " node " ++ toString node),
    i.time.map (fun time => " time " ++ toString time),
    i.pv.map (fun pv => pv.foldl (fun acc pm => acc ++ " " ++ pm) " pv"),
    i.multi_pv.map (fun multi_pv => " " ++ multi_pv.fmt),
    i.score.map (fun score => " " ++ score.fmt),
    i.curr_move.map (fun curr_move => " currmove " ++ curr_move),
    i.hash_full.map (fun hash_full => " hashfull " ++ toString hash_full),
    i.nodes_per_sec.map (fun nps => " nps " ++ toString nps),
    i.tb_hits.map (fun tb_hits => " tbhits " ++ toString tb_hits),
    i.sb_hits.map (fun sb_hits => " sbhits " ++ toString sb_hits),
    i.cpu_load.map (fun cpu_load => " cpuload " ++ toString cpu_load),
    i.string.map (fun string => " string " ++ string),
    i.refutation.map (fun refutation => " " ++ refutation.fmt),
    i.curr_line.map (fun curr_line => " " ++ curr_line.fmt) ]

/-- Display for Info from src/engcmd.rs lines 136-192: write "info", then
test each field in declaration order, appending its fragment when present. -/
def Info.fmt (i : Info) : String :=
  i.fragments.foldl emitFrag "info"

/-- EngCmd from src/engcmd.rs: one variant per engine-to-GUI command. -/
inductive EngCmd where
  | idName (name : String)
  | idAuthor (author : String)
  | uciOk
  | readyOk
  | bestMove (best : Pm) (ponder : Option Pm)
  | info (i : Info)
  | hasOpt (h : HasOpt)
  deriving DecidableEq

/-- Display for EngCmd from src/engcmd.rs lines 47-65. -/
def EngCmd.fmt : EngCmd → String
  | .uciOk => "uciok"
  | .readyOk => "readyok"
  | .idName name => "id name " ++ name
  | .idAuthor author => "id author " ++ author
  | .info i => i.fmt
  | .hasOpt h => h.fmt
  | .bestMove best ponder =>
    let r := "bestmove " ++ best
    match ponder with
    | some pm => r ++ " ponder " ++ pm
    | none => r

/-- Spec-side formatter for Info, following the words of spec section 4.5:
fields are emitted only when present (Some), in one fixed order, identical to
the field declaration order of the Info entity: depth, seldepth, node, time
(rendered as integer milliseconds), pv, multipv, score, currmove, hashfull,
nps, tbhits, sbhits, cpuload, string, refutation, currline; the line starts
with the command keyword "info" and carries no trailing newline. -/
def Info.fmtSpec (i : Info) : String :=
  "info" ++ String.join (List.filterMap id
    [ i.depth.map (fun depth => " depth " ++ toString depth),
      i.sel_depth.map (fun sel_depth => " seldepth " ++ toString sel_depth),
      i.node.map (fun node => " node " ++ toString node),
      i.time.map (fun time => " time " ++ toString time),
      i.pv.map (fun pv => pv.foldl (fun acc pm => acc ++ " " ++ pm) " pv"),
      i.multi_pv.map (fun multi_pv => " " ++ multi_pv.fmt),
      i.score.map (fun score => " " ++ score.fmt),
      i.curr_move.map (fun curr_move => " currmove " ++ curr_move),
      i.hash_full.map (fun hash_full => " hashfull " ++ toString hash_full),
      i.nodes_per_sec.map (fun nps => " nps " ++ toString nps),
      i.tb_hits.map (fun tb_hits => " tbhits " ++ toString tb_hits),
      i.sb_hits.map (fun sb_hits => " sbhits " ++ toString sb_hits),
      i.cpu_load.map (fun cpu_load => " cpuload " ++ toString cpu_load),
      i.string.map (fun string => " string " ++ string),
      i.refutation.map (fun refutation => " " ++ refutation.fmt),
      i.curr_line.map (fun curr_line => " " ++ curr_line.fmt) ])

/-- The Info value with every one of the sixteen fields unset. -/
def infoAllNone : Info :=
  { depth := none, sel_depth := none, node := none, time := none, pv := none
    multi_pv := none, score := none, curr_move := none, hash_full := none
    nodes_per_sec := none, tb_hits := none, sb_hits := none, cpu_load := none
    string := none, refutation := none, curr_line := none }

/-- The Info value with sel_depth set but depth (and everything else) unset,
a value the Info type admits even though the protocol comment on the
sel_depth field (src/engcmd.rs lines 80-82) requires depth alongside it. -/
def infoSelDepthOnly : Info := { infoAllNone with sel_depth := some 3 }

/-- Spec-side formatter for Score, following the words of spec section 4.5:
Score renders "score cp <cp> [<mate>] [<bound-keyword>]" — the keyword pair
score cp, the centipawn value, then optionally the bare mate value, then
optionally the bound keyword, all separated by single spaces. -/
def Score.fmtSpec (s : Score) : String :=
  String.intercalate " "
    (["score", "cp", toString s.cp]
      ++ (match s.mate with | some mate => [toString mate] | none => [])
      ++ (match s.bound with | some bound => [bound.as_str] | none => []))

/-- A trace of calls on a PosBuilder, so that "was a base-position setter
ever called" can be stated over the builder's whole history. -/
inductive PosOp where
  | startOp
  | fenOp (s : String)
  | moveOp (s : String)
  deriving DecidableEq

/-- Interpret one traced call on a PosBuilder. -/
def PosBuilder.apply (b : PosBuilder) : PosOp → PosBuilder
  | .startOp => b.start_pos
  | .fenOp s => b.fen s
  | .moveOp s => b.add_move s

/-- Run a trace of calls on a fresh PosBuilder. -/
def PosBuilder.runOps (ops : List PosOp) : PosBuilder :=
  ops.foldl PosBuilder.apply PosBuilder.new

/-- The last base position set by a trace: none exactly when neither
start_pos nor fen was ever called, otherwise the value of the later call
(setters overwrite, last wins; add_move does not touch it). -/
def lastBase (ops : List PosOp) : Option PosOpt :=
  ops.foldl
    (fun acc op =>
      match op with
      | .startOp => some .startPos
      | .fenOp s => some (.fen s)
      | .moveOp _ => acc)
    none

/-- The Go value with only the infinite flag set: all eleven search-limit
fields unset. -/
def goInfiniteOnly : Go := { Go.new with infinite := some () }

/-- The Go value with only the depth limit set. -/
def goDepthOnly : Go := { Go.new with depth := some 5 }

/-- True when the string contains no newline character, i.e. it is a single
line with no trailing newline. -/
def nlFree (s : String) : Bool :=
  s.data.all (fun c => c ≠ '\n')

/-- True when every move token of a MultiPv renders newline-free. -/
def MultiPv.nlFreeInputs (m : MultiPv) : Bool :=
  m.moves.all nlFree

/-- True when every move token of a Refutation renders newline-free. -/
def Refutation.nlFreeInputs (r : Refutation) : Bool :=
  nlFree r.refuted_move && r.moves.all nlFree

/-- True when every move token of a CurrLine renders newline-free. -/
def CurrLine.nlFreeInputs (c : CurrLine) : Bool :=
  c.line.all nlFree

/-- True when every embedded free-text string and delegated token of an Info
renders newline-free.  The numeric fields need no condition: decimal
rendering of a number never contains a newline. -/
def Info.nlFreeInputs (i : Info) : Bool :=
  (match i.pv with | some pv => pv.all nlFree | none => true)
    && (match i.multi_pv with | some m => m.nlFreeInputs | none => true)
    && (match i.curr_move with | some pm => nlFree pm | none => true)
    && (match i.string with | some s => nlFree s | none => true)
    && (match i.refutation with | some r => r.nlFreeInputs | none => true)
    && (match i.curr_line with | some c => c.nlFreeInputs | none => true)

/-- True when every embedded free-text string and delegated token of an
EngCmd renders newline-free. -/
def EngCmd.nlFreeInputs : EngCmd → Bool
  | .uciOk => true
  | .readyOk => true
  | .idName name => nlFree name
  | .idAuthor author => nlFree author
  | .info i => i.nlFreeInputs
  | .hasOpt h => nlFree h.text
  | .bestMove best ponder =>
    nlFree best && (match ponder with | some pm => nlFree pm | none => true)

/-- Concatenating a cons of strings, unfolded by one step. -/
theorem string_join_cons (s : String) (l : List String) :
    String.join (s :: l) = s ++ String.join l := by
  apply String.ext
  simp [String.join_eq]

/-- Folding emitFrag over a list of optional fragments appends exactly the
present fragments, in list order, to the accumulator. -/
theorem foldl_emitFrag (l : List (Option String)) :
    ∀ r : String, l.foldl emitFrag r = r ++ String.join (l.filterMap id) := by
  induction l with
  | nil => intro r; simp [String.join]
  | cons o t ih =>
    intro r
    cases o with
    | none => simpa [emitFrag] using ih r
    | some s =>
      simp only [List.foldl, emitFrag, List.filterMap_cons, id]
      rw [ih (r ++ s), string_join_cons, String.append_assoc]

/-- A decimal digit character is never a newline. -/
theorem digitChar_ne_newline (k : Nat) : Nat.digitChar k ≠ '\n' := by
  unfold Nat.digitChar
  rcases k with _|_|_|_|_|_|_|_|_|_|_|_|_|_|_|_|k <;> simp

/-- Every character produced by Nat.toDigitsCore is a digit character or one
of the seed characters. -/
theorem toDigitsCore_chars (b : Nat) :
    ∀ (f n : Nat) (ds : List Char), ∀ c ∈ Nat.toDigitsCore b f n ds,
      c ∈ ds ∨ ∃ k, c = Nat.digitChar k := by
  intro f
  induction f with
  | zero => intro n ds c hc; exact Or.inl hc
  | succ f ih =>
    intro n ds c hc
    simp only [Nat.toDigitsCore] at hc
    split at hc
    · rcases List.mem_cons.mp hc with h | h
      · exact Or.inr ⟨n % b, h⟩
      · exact Or.inl h
    · rcases ih _ _ _ hc with h | h
      · rcases List.mem_cons.mp h with h2 | h2
        · exact Or.inr ⟨n % b, h2⟩
        · exact Or.inl h2
      · exact Or.inr h

/-- The decimal rendering of a natural number contains no newline. -/
theorem nlFree_natToString (n : Nat) : nlFree (toString n) = true := by
  simp only [nlFree, List.all_eq_true]
  intro c hc
  have hmem : c ∈ Nat.toDigits 10 n := hc
  rcases toDigitsCore_chars 10 (n + 1) n [] c hmem with h | ⟨k, hk⟩
  · simp at h
  · simp [hk, digitChar_ne_newline k]

/-- nlFree distributes over append. -/
theorem nlFree_append (a b : String) : nlFree (a ++ b) = (nlFree a && nlFree b) := by
  simp [nlFree, String.data_append]

/-- The decimal rendering of an integer contains no newline. -/
theorem nlFree_intToString (i : Int) : nlFree (toString i) = true := by
  cases i with
  | ofNat n => exact nlFree_natToString n
  | negSucc n =>
    show nlFree ("-" ++ Nat.repr (n + 1)) = true
    rw [nlFree_append]
    rw [show nlFree (Nat.repr (n + 1)) = true from nlFree_natToString (n + 1)]
    decide

/-- Appending newline-free move tokens one by one, each preceded by a space,
keeps the line newline-free. -/
theorem nlFree_foldl_moves (moves : List Pm) :
    ∀ r : String, nlFree r = true → moves.all nlFree = true →
      nlFree (moves.foldl (fun acc pm => acc ++ " " ++ pm) r) = true := by
  induction moves with
  | nil => intro r hr _; exact hr
  | cons m ms ih =>
    intro r hr hm
    simp only [List.all_cons, Bool.and_eq_true] at hm
    exact ih (r ++ " " ++ m)
      (by rw [nlFree_append, nlFree_append, hr, hm.1]; decide) hm.2

/-- Folding emitFrag over newline-free fragments keeps the line
newline-free. -/
theorem nlFree_foldl_emitFrag (l : List (Option String)) :
    ∀ r : String, nlFree r = true → (∀ s, some s ∈ l → nlFree s = true) →
      nlFree (l.foldl emitFrag r) = true := by
  induction l with
  | nil => intro r hr _; exact hr
  | cons o t ih =>
    intro r hr hl
    cases o with
    | none => exact ih r hr (fun s hs => hl s (List.mem_cons_of_mem _ hs))
    | some s =>
      exact ih (r ++ s)
        (by rw [nlFree_append, hr, hl s (List.mem_cons_self _ _)]; rfl)
        (fun s2 hs2 => hl s2 (List.mem_cons_of_mem _ hs2))

/-- A formatted Score is newline-free, with no condition: its pieces are
keywords and decimal numbers. -/
theorem nlFree_scoreFmt (s : Score) : nlFree s.fmt = true := by
  rcases s with ⟨cp, mate, bound⟩
  rcases mate with _ | m <;> rcases bound with _ | bd
  all_goals simp only [Score.fmt]
  all_goals try rcases bd with _ | _
  all_goals rw [nlFree_append]
  all_goals simp [nlFree_append, nlFree_intToString, ScoreBound.as_str]
  all_goals decide

/-- A formatted MultiPv is newline-free when its move tokens are. -/
theorem nlFree_multiPvFmt (m : MultiPv) (h : m.nlFreeInputs = true) :
    nlFree m.fmt = true := by
  apply nlFree_foldl_moves m.moves _ _ h
  rw [nlFree_append]
  rw [show nlFree (toString m.rank) = true from nlFree_natToString m.rank]
  decide

/-- A formatted Refutation is newline-free when its move tokens are. -/
theorem nlFree_refutationFmt (r : Refutation) (h : r.nlFreeInputs = true) :
    nlFree r.fmt = true := by
  simp only [Refutation.nlFreeInputs, Bool.and_eq_true] at h
  apply nlFree_foldl_moves r.moves _ _ h.2
  rw [nlFree_append, h.1]
  decide

/-- A formatted CurrLine is newline-free when its move tokens are. -/
theorem nlFree_currLineFmt (c : CurrLine) (h : c.nlFreeInputs = true) :
    nlFree c.fmt = true := by
  apply nlFree_foldl_moves c.line _ _ h
  rcases hc : c.cpu_id with _ | cpu
  · simp only [CurrLine.fmt, hc]
    decide
  · simp only [CurrLine.fmt, hc]
    rw [nlFree_append]
    rw [show nlFree (toString cpu) = true from nlFree_natToString cpu]
    decide

/-- A formatted Info is newline-free when its free-text string and all its
delegated tokens are. -/
theorem nlFree_infoFmt (i : Info) (h : i.nlFreeInputs = true) :
    nlFree i.fmt = true := by
  simp only [Info.nlFreeInputs, Bool.and_eq_true] at h
  obtain ⟨⟨⟨⟨⟨hpv, hmpv⟩, hcm⟩, hstr⟩, href⟩, hcl⟩ := h
  apply nlFree_foldl_emitFrag _ "info" (by decide)
  intro s hs
  simp only [Info.fragments, List.mem_cons, List.not_mem_nil, or_false] at hs
  rcases hs with h1|h2|h3|h4|h5|h6|h7|h8|h9|h10|h11|h12|h13|h14|h15|h16
  · obtain ⟨d, _, rfl⟩ := Option.map_eq_some'.mp h1.symm
    rw [nlFree_append]
    rw [show nlFree (toString d) = true from nlFree_natToString d]
    decide
  · obtain ⟨d, _, rfl⟩ := Option.map_eq_some'.mp h2.symm
    rw [nlFree_append]
    rw [show nlFree (toString d) = true from nlFree_natToString d]
    decide
  · obtain ⟨d, _, rfl⟩ := Option.map_eq_some'.mp h3.symm
    rw [nlFree_append]
    rw [show nlFree (toString d) = true from nlFree_natToString d]
    decide
  · obtain ⟨d, _, rfl⟩ := Option.map_eq_some'.mp h4.symm
    rw [nlFree_append]
    rw [show nlFree (toString d) = true from nlFree_natToString d]
    decide
  · obtain ⟨pv, hd, rfl⟩ := Option.map_eq_some'.mp h5.symm
    rw [hd] at hpv
    exact nlFree_foldl_moves pv " pv" (by decide) hpv
  · obtain ⟨m, hd, rfl⟩ := Option.map_eq_some'.mp h6.symm
    rw [hd] at hmpv
    rw [nlFree_append, nlFree_multiPvFmt m hmpv]
    decide
  · obtain ⟨sc, _, rfl⟩ := Option.map_eq_some'.mp h7.symm
    rw [nlFree_append, nlFree_scoreFmt sc]
    decide
  · obtain ⟨pm, hd, rfl⟩ := Option.map_eq_some'.mp h8.symm
    rw [hd] at hcm
    rw [nlFree_append, show nlFree pm = true from hcm]
    decide
  · obtain ⟨d, _, rfl⟩ := Option.map_eq_some'.mp h9.symm
    rw [nlFree_append]
    rw [show nlFree (toString d) = true from nlFree_natToString d]
    decide
  · obtain ⟨d, _, rfl⟩ := Option.map_eq_some'.mp h10.symm
    rw [nlFree_append]
    rw [show nlFree (toString d) = true from nlFree_natToString d]
    decide
  · obtain ⟨d, _, rfl⟩ := Option.map_eq_some'.mp h11.symm
    rw [nlFree_append]
    rw [show nlFree (toString d) = true from nlFree_natToString d]
    decide
  · obtain ⟨d, _, rfl⟩ := Option.map_eq_some'.mp h12.symm
    rw [nlFree_append]
    rw [show nlFree (toString d) = true from nlFree_natToString d]
    decide
  · obtain ⟨d, _, rfl⟩ := Option.map_eq_some'.mp h13.symm
    rw [nlFree_append]
    rw [show nlFree (toString d) = true from nlFree_natToString d]
    decide
  · obtain ⟨str, hd, rfl⟩ := Option.map_eq_some'.mp h14.symm
    rw [hd] at hstr
    rw [nlFree_append, show nlFree str = true from hstr]
    decide
  · obtain ⟨rf, hd, rfl⟩ := Option.map_eq_some'.mp h15.symm
    rw [hd] at href
    rw [nlFree_append, nlFree_refutationFmt rf href]
    decide
  · obtain ⟨cl, hd, rfl⟩ := Option.map_eq_some'.mp h16.symm
    rw [hd] at hcl
    rw [nlFree_append, nlFree_currLineFmt cl hcl]
    decide

/-- A formatted EngCmd is newline-free when its embedded strings and
delegated tokens are. -/
theorem nlFree_engCmdFmt (c : EngCmd) (h : c.nlFreeInputs = true) :
    nlFree c.fmt = true := by
  cases c with
  | uciOk => decide
  | readyOk => decide
  | idName name =>
    rw [EngCmd.fmt, nlFree_append, show nlFree name = true from h]
    decide
  | idAuthor author =>
    rw [EngCmd.fmt, nlFree_append, show nlFree author = true from h]
    decide
  | info i => exact nlFree_infoFmt i h
  | hasOpt ho => exact h
  | bestMove best ponder =>
    simp only [EngCmd.nlFreeInputs, Bool.and_eq_true] at h
    rcases hp : ponder with _ | pm
    · simp only [EngCmd.fmt]
      rw [nlFree_append, h.1]
      decide
    · simp only [EngCmd.fmt]
      rw [hp] at h
      rw [nlFree_append, nlFree_append, nlFree_append, h.1]
      rw [show nlFree pm = true from h.2]
      decide

/-- add_move never touches the base position. -/
theorem add_move_pos (b : PosBuilder) (mv : String) :
    (b.add_move mv).pos = b.pos := by
  cases hb : b.moves <;> simp [PosBuilder.add_move, hb]

/-- add_move appends the move at the end of the accumulated list. -/
theorem add_move_moves (b : PosBuilder) (mv : String) :
    (b.add_move mv).moves = some (b.moves.getD [] ++ [mv]) := by
  cases hb : b.moves <;> simp [PosBuilder.add_move, hb]

/-- Folding add_move never touches the base position. -/
theorem foldl_add_move_pos (mvs : List String) :
    ∀ b : PosBuilder, (mvs.foldl PosBuilder.add_move b).pos = b.pos := by
  induction mvs with
  | nil => intro b; rfl
  | cons m ms ih =>
    intro b
    have h := ih (b.add_move m)
    rw [add_move_pos] at h
    exact h

/-- Folding add_move over a builder that already holds a move list appends
the new moves in call order. -/
theorem foldl_add_move_moves (mvs : List String) :
    ∀ (b : PosBuilder) (l : List String), b.moves = some l →
      (mvs.foldl PosBuilder.add_move b).moves = some (l ++ mvs) := by
  induction mvs with
  | nil => intro b l h; simpa using h
  | cons m ms ih =>
    intro b l h
    have h1 : (b.add_move m).moves = some (l ++ [m]) := by
      rw [add_move_moves, h]
      rfl
    have h2 := ih (b.add_move m) (l ++ [m]) h1
    simpa [List.append_assoc] using h2

/-- Running a trace of builder calls leaves as base position exactly the
last base set by the trace (none when no setter occurs in it). -/
theorem foldl_apply_pos (ops : List PosOp) :
    ∀ b : PosBuilder,
      (ops.foldl PosBuilder.apply b).pos =
        ops.foldl
          (fun acc op =>
            match op with
            | .startOp => some PosOpt.startPos
            | .fenOp s => some (.fen s)
            | .moveOp _ => acc) b.pos := by
  induction ops with
  | nil => intro b; rfl
  | cons op t ih =>
    intro b
    cases op with
    | startOp => exact ih b.start_pos
    | fenOp s => exact ih (b.fen s)
    | moveOp s =>
      have h := ih (b.add_move s)
      rw [add_move_pos] at h
      exact h

/-- The base position of a builder that ran a trace is the last base the
trace set. -/
theorem runOps_pos (ops : List PosOp) :
    (PosBuilder.runOps ops).pos = lastBase ops :=
  foldl_apply_pos ops PosBuilder.new

/-- build() on a builder with no base position fails with Position and
leaves the builder untouched. -/
theorem build_of_pos_none (b : PosBuilder) (h : b.pos = none) :
    b.build = (.error .position, b) := by
  simp [PosBuilder.build, h]

/-- build() on a builder holding a base position succeeds with that base
and the accumulated moves, and leaves behind the fresh builder state. -/
theorem build_of_pos_some (b : PosBuilder) (p : PosOpt) (h : b.pos = some p) :
    b.build = (.ok { pos := p, moves := b.moves }, PosBuilder.new) := by
  simp [PosBuilder.build, h, PosBuilder.new]

/-- C1.  The claim says GuiCmd::try_from returns a typed Result carrying a
UziErr on malformed input and never panics, for all inputs including
non-empty malformed lines.  On the code this fails: for every line holding
at least one word the body reaches todo!(), which panics; the theorem
records that every such input produces the panic outcome rather than an Ok
or Err value. -/
theorem uzi_c1_try_from_nonempty_panics (cmd : String)
    (h : (split_whitespace cmd).isEmpty = false) :
    GuiCmd.try_from cmd = .panicTodo := by
  simp [GuiCmd.try_from, h]

/-- Witness for C1 at the concrete input "uci". -/
theorem uzi_c1_witness : GuiCmd.try_from "uci" = .panicTodo :=
  uzi_c1_try_from_nonempty_panics "uci" (by decide)

/-- C4.  Parsing the empty string and the whitespace-only string "   " both
fail with MissingCmd; the third conjunct states the general guard the code
applies before any keyword is examined: whenever the token list of the line
is empty, the result is Err(MissingCmd). -/
theorem uzi_c4_missing_cmd :
    GuiCmd.try_from "" = .err .missingCmd
      ∧ GuiCmd.try_from "   " = .err .missingCmd
      ∧ ∀ cmd : String, split_whitespace cmd = [] →
          GuiCmd.try_from cmd = .err .missingCmd := by
  refine ⟨by decide, by decide, ?_⟩
  intro cmd h
  simp [GuiCmd.try_from, h]

/-- Witness for C4, discharging the hypothesis of the general conjunct at
the concrete whitespace-only input " ". -/
theorem uzi_c4_witness : GuiCmd.try_from " " = .err .missingCmd :=
  uzi_c4_missing_cmd.2.2 " " (by decide)

/-- C5.  Over every trace of builder calls: build() fails with Position and
leaves the builder untouched when no base-position setter was ever called
(lastBase of the trace is none); otherwise it returns the immutable Pos
whose base is the last base set, moves the fields out (the builder after
the call is the fresh builder), and a second build() on the same instance
then fails with Position. -/
theorem uzi_c5_pos_build (ops : List PosOp) :
    (lastBase ops = none →
      (PosBuilder.runOps ops).build = (.error .position, PosBuilder.runOps ops))
      ∧ ∀ p, lastBase ops = some p →
          (PosBuilder.runOps ops).build =
              (.ok { pos := p, moves := (PosBuilder.runOps ops).moves },
                PosBuilder.new)
            ∧ ((PosBuilder.runOps ops).build).2.build =
                (.error .position, PosBuilder.new) := by
  constructor
  · intro h
    exact build_of_pos_none _ (by rw [runOps_pos, h])
  · intro p h
    have hp : (PosBuilder.runOps ops).pos = some p := by rw [runOps_pos, h]
    refine ⟨build_of_pos_some _ p hp, ?_⟩
    rw [build_of_pos_some _ p hp]
    exact build_of_pos_none PosBuilder.new rfl

/-- Witness for C5: a trace that adds a move and then sets startpos; build
succeeds with that base, and a second build on the moved-out builder fails
with Position. -/
theorem uzi_c5_witness :
    (PosBuilder.runOps [PosOp.moveOp "e2e4", PosOp.startOp]).build =
        (.ok { pos := .startPos,
               moves := (PosBuilder.runOps [PosOp.moveOp "e2e4", PosOp.startOp]).moves },
          PosBuilder.new)
      ∧ ((PosBuilder.runOps [PosOp.moveOp "e2e4", PosOp.startOp]).build).2.build =
          (.error .position, PosBuilder.new) :=
  (uzi_c5_pos_build [PosOp.moveOp "e2e4", PosOp.startOp]).2 PosOpt.startPos (by decide)

/-- C9.  When build() fails with Position because no base position was set,
the builder's state is unchanged (the moves added before the failed build
are retained), and a subsequent start_pos(), or fen() on the state returned
by the failed build, followed by build() succeeds with exactly those moves
in their original order. -/
theorem uzi_c9_moves_survive_failed_build (mvs : List String) (hne : mvs ≠ [])
    (f : String) :
    (mvs.foldl PosBuilder.add_move PosBuilder.new).build =
        (.error .position, mvs.foldl PosBuilder.add_move PosBuilder.new)
      ∧ (mvs.foldl PosBuilder.add_move PosBuilder.new).moves = some mvs
      ∧ ((mvs.foldl PosBuilder.add_move PosBuilder.new).start_pos).build =
          (.ok { pos := .startPos, moves := some mvs }, PosBuilder.new)
      ∧ ((((mvs.foldl PosBuilder.add_move PosBuilder.new).build).2).fen f).build =
          (.ok { pos := .fen f, moves := some mvs }, PosBuilder.new) := by
  rcases mvs with _ | ⟨m, ms⟩
  · exact absurd rfl hne
  have hmv : ((m :: ms).foldl PosBuilder.add_move PosBuilder.new).moves
      = some (m :: ms) := by
    have h1 : (PosBuilder.new.add_move m).moves = some [m] := rfl
    simpa using foldl_add_move_moves ms (PosBuilder.new.add_move m) [m] h1
  have hpos : ((m :: ms).foldl PosBuilder.add_move PosBuilder.new).pos = none := by
    have h := foldl_add_move_pos (m :: ms) PosBuilder.new
    simpa using h
  have hbuild := build_of_pos_none _ hpos
  refine ⟨hbuild, hmv, ?_, ?_⟩
  · rw [build_of_pos_some _ .startPos rfl]
    rw [show ((m :: ms).foldl PosBuilder.add_move PosBuilder.new).start_pos.moves
        = ((m :: ms).foldl PosBuilder.add_move PosBuilder.new).moves from rfl, hmv]
  · rw [hbuild]
    rw [build_of_pos_some _ (.fen f) rfl]
    rw [show (((m :: ms).foldl PosBuilder.add_move PosBuilder.new).fen f).moves
        = ((m :: ms).foldl PosBuilder.add_move PosBuilder.new).moves from rfl, hmv]

/-- Witness for C9 at the concrete moves e2e4, e7e5 and a concrete FEN. -/
theorem uzi_c9_witness :
    (["e2e4", "e7e5"].foldl PosBuilder.add_move PosBuilder.new).build =
        (.error .position, ["e2e4", "e7e5"].foldl PosBuilder.add_move PosBuilder.new)
      ∧ (["e2e4", "e7e5"].foldl PosBuilder.add_move PosBuilder.new).moves
          = some ["e2e4", "e7e5"]
      ∧ ((["e2e4", "e7e5"].foldl PosBuilder.add_move PosBuilder.new).start_pos).build =
          (.ok { pos := .startPos, moves := some ["e2e4", "e7e5"] }, PosBuilder.new)
      ∧ ((((["e2e4", "e7e5"].foldl PosBuilder.add_move PosBuilder.new).build).2).fen "8/8/8/8/8/8/8/8 w - - 0 1").build =
          (.ok { pos := .fen "8/8/8/8/8/8/8/8 w - - 0 1", moves := some ["e2e4", "e7e5"] },
            PosBuilder.new) :=
  uzi_c9_moves_survive_failed_build ["e2e4", "e7e5"] (by decide) "8/8/8/8/8/8/8/8 w - - 0 1"

/-- C2 counterexample.  The claim quantifies over every EngCmd value; it
fails at IdName("a\nb"): the formatted text embeds the name verbatim, so the
output contains a newline character and is not one line. -/
theorem uzi_c2_counterexample :
    EngCmd.fmt (.idName "a\nb") = "id name a\nb"
      ∧ nlFree (EngCmd.fmt (.idName "a\nb")) = false := by
  constructor
  · rfl
  · decide

/-- C2 as amended.  For every EngCmd (and Info, Score, MultiPv, CurrLine,
Refutation) value whose embedded free-text strings and delegated tokens are
newline-free, formatting is total by construction and produces a string with
no newline character at all — hence exactly one line and no trailing
newline.  Score needs no condition: all its pieces are keywords and decimal
numbers. -/
theorem uzi_c2_fmt_single_line :
    (∀ c : EngCmd, c.nlFreeInputs = true → nlFree c.fmt = true)
      ∧ (∀ i : Info, i.nlFreeInputs = true → nlFree i.fmt = true)
      ∧ (∀ s : Score, nlFree s.fmt = true)
      ∧ (∀ m : MultiPv, m.nlFreeInputs = true → nlFree m.fmt = true)
      ∧ (∀ c : CurrLine, c.nlFreeInputs = true → nlFree c.fmt = true)
      ∧ (∀ r : Refutation, r.nlFreeInputs = true → nlFree r.fmt = true) :=
  ⟨nlFree_engCmdFmt, nlFree_infoFmt, nlFree_scoreFmt, nlFree_multiPvFmt,
    nlFree_currLineFmt, nlFree_refutationFmt⟩

/-- Witness for C2 at concrete values of each shape. -/
theorem uzi_c2_witness :
    nlFree (EngCmd.fmt (.bestMove "e2e4" (some "e7e6"))) = true
      ∧ nlFree (Info.fmt infoSelDepthOnly) = true
      ∧ nlFree (Score.fmt { cp := -5, mate := some (-2), bound := some .lower }) = true :=
  ⟨uzi_c2_fmt_single_line.1 _ (by decide),
    uzi_c2_fmt_single_line.2.1 _ (by decide),
    uzi_c2_fmt_single_line.2.2.1 _⟩

/-- C3.  Formatting an Info emits exactly the fields that are Some, in the
fixed declaration order depth, seldepth, node, time (as integer
milliseconds), pv, multipv, score, currmove, hashfull, nps, tbhits, sbhits,
cpuload, string, refutation, currline, whatever subset of fields is set:
the sequential Display impl equals the spec-side formatter that joins the
present fragments of the ordered field list. -/
theorem uzi_c3_info_field_order (i : Info) : i.fmt = i.fmtSpec := by
  rw [Info.fmt, foldl_emitFrag]
  rfl

/-- C6 counterexample.  A Go with all eleven search-limit fields unset but
the infinite flag set: the claim says build() fails with NothingSetForGo
when all eleven optional fields are unset, yet here build() succeeds (the
spec requires "go infinite" to succeed and defines NothingSetForGo as "no
limiting option and no infinite flag"). -/
theorem uzi_c6_counterexample :
    goInfiniteOnly.search_moves = none ∧ goInfiniteOnly.ponder = none
      ∧ goInfiniteOnly.wtime = none ∧ goInfiniteOnly.btime = none
      ∧ goInfiniteOnly.winc = none ∧ goInfiniteOnly.binc = none
      ∧ goInfiniteOnly.moves_to_go = none ∧ goInfiniteOnly.depth = none
      ∧ goInfiniteOnly.nodes = none ∧ goInfiniteOnly.mate = none
      ∧ goInfiniteOnly.move_time = none
      ∧ GoBuilder.build { go := goInfiniteOnly } = (.ok goInfiniteOnly, GoBuilder.new) :=
  ⟨rfl, rfl, rfl, rfl, rfl, rfl, rfl, rfl, rfl, rfl, rfl, rfl⟩

/-- C6 as amended.  build() is the sole validation point: it fails with
NothingSetForGo exactly when all twelve optional fields — the eleven
search-limit fields and the infinite flag — are unset, and otherwise
returns the immutable Go. -/
theorem uzi_c6_go_build (g : Go) :
    ((GoBuilder.build { go := g }).1 = .error .nothingSetForGo ↔
        (g.search_moves = none ∧ g.ponder = none ∧ g.wtime = none ∧ g.btime = none
          ∧ g.winc = none ∧ g.binc = none ∧ g.moves_to_go = none ∧ g.depth = none
          ∧ g.nodes = none ∧ g.mate = none ∧ g.move_time = none ∧ g.infinite = none))
      ∧ (Go.allUnset g = false →
          GoBuilder.build { go := g } = (.ok g, GoBuilder.new)) := by
  have hiff : Go.allUnset g = true ↔
      (g.search_moves = none ∧ g.ponder = none ∧ g.wtime = none ∧ g.btime = none
        ∧ g.winc = none ∧ g.binc = none ∧ g.moves_to_go = none ∧ g.depth = none
        ∧ g.nodes = none ∧ g.mate = none ∧ g.move_time = none ∧ g.infinite = none) := by
    simp [Go.allUnset, Bool.and_eq_true, Option.isNone_iff_eq_none, and_assoc]
  constructor
  · by_cases hall : Go.allUnset g = true
    · constructor
      · intro _; exact hiff.mp hall
      · intro _; simp [GoBuilder.build, hall]
    · have hfalse : Go.allUnset g = false := by simpa using hall
      constructor
      · intro hE
        rw [show GoBuilder.build { go := g } = (.ok g, GoBuilder.new) from by
          simp [GoBuilder.build, hfalse]] at hE
        exact absurd hE (by simp)
      · intro hconj
        exact absurd (hiff.mpr hconj) hall
  · intro hfalse
    simp [GoBuilder.build, hfalse]

/-- Witness for C6 at the Go holding only a depth limit. -/
theorem uzi_c6_witness :
    GoBuilder.build { go := goDepthOnly } = (.ok goDepthOnly, GoBuilder.new) :=
  (uzi_c6_go_build goDepthOnly).2 (by decide)

/-- C7.  A formatted Score is the canonical line
score cp cpvalue, then optionally the bare mate value, then optionally the
bound keyword, space separated: the Display impl equals the spec-side
formatter that intercalates the present pieces with single spaces. -/
theorem uzi_c7_score_canonical (s : Score) : s.fmt = s.fmtSpec := by
  rcases s with ⟨cp, mate, bound⟩
  rcases mate with _ | m <;> rcases bound with _ | bd
  all_goals simp [Score.fmt, Score.fmtSpec, String.intercalate,
    String.intercalate.go, String.append_assoc]

/-- C8 counterexample.  The claim says every Info value satisfies
sel_depth set implies depth set and that no core operation formats an Info
violating it.  The Info type admits a value with sel_depth set and depth
unset, and Display formats it, emitting seldepth with no depth. -/
theorem uzi_c8_counterexample :
    infoSelDepthOnly.sel_depth = some 3 ∧ infoSelDepthOnly.depth = none
      ∧ infoSelDepthOnly.fmt = "info seldepth 3" :=
  ⟨rfl, rfl, rfl⟩

/-- C8 as amended.  The invariant is documented but not enforced by the
type or the formatter; for every Info value that does satisfy it, whenever
seldepth is emitted the line carries the depth field immediately before it:
the output starts with "info depth d seldepth sd". -/
theorem uzi_c8_seldepth_formats_after_depth (i : Info)
    (hinv : i.sel_depth.isSome = true → i.depth.isSome = true)
    (sd : Nat) (hsd : i.sel_depth = some sd) :
    ∃ d, i.depth = some d ∧
      i.fmt = "info" ++ " depth " ++ toString d ++ " seldepth " ++ toString sd
        ++ String.join ((i.fragments.drop 2).filterMap id) := by
  have hds : i.sel_depth.isSome = true := by rw [hsd]; rfl
  obtain ⟨d, hd⟩ := Option.isSome_iff_exists.mp (hinv hds)
  refine ⟨d, hd, ?_⟩
  have hfrag : i.fragments =
      some (" depth " ++ toString d) :: some (" seldepth " ++ toString sd)
        :: i.fragments.drop 2 := by
    simp [Info.fragments, hd, hsd]
  conv_lhs => rw [Info.fmt, foldl_emitFrag, hfrag]
  simp only [List.filterMap_cons, id_eq, string_join_cons]
  simp only [String.append_assoc]

/-- Witness for C8 at the Info with depth 7 and seldepth 3. -/
theorem uzi_c8_witness :
    ∃ d, Info.depth { infoAllNone with depth := some 7, sel_depth := some 3 } = some d
      ∧ Info.fmt { infoAllNone with depth := some 7, sel_depth := some 3 } =
          "info" ++ " depth " ++ toString d ++ " seldepth " ++ toString (3 : Nat)
            ++ String.join
              (((Info.fragments
                  { infoAllNone with depth := some 7, sel_depth := some 3 }).drop 2).filterMap id) :=
  uzi_c8_seldepth_formats_after_depth
    { infoAllNone with depth := some 7, sel_depth := some 3 } (by decide) 3 rfl

/-- C10.  Formatting the Info with every field unset yields exactly the
string "info": no trailing space and no other characters. -/
theorem uzi_c10_info_all_none : infoAllNone.fmt = "info" := rfl
